import Mathlib

/-!
# Verification of the `bgl` Backlog CLI core

A shallow embedding, in Lean 4, of the authenticated API-client layer of the
`bgl` command-line tool: the credential store (`internal/config/credentials.go`),
the OAuth login / logout / token-refresh flows (`internal/auth`), and the
API client with its 401-expired refresh-and-retry logic (`internal/backlog`).

Go functions are translated into pure Lean functions.  Effects are made
explicit:

* HTTP exchanges become parameters describing the responses the remote
  server would give;
* file-system state becomes an explicit `Option (List Char)` (the config
  file's contents, `none` when the file does not exist);
* functions that write the config file return, alongside their result, the
  list of `Config` values passed to `Config.Save` (so "no write happened"
  is `[]`);
* the recursion in `Client.doRequest` is unfolded with an explicit fuel
  parameter, `none` standing for "the recursion is still running after
  `fuel` nested calls".

Go strings are byte strings; all strings handled here are valid UTF-8, so
they are modelled by Lean `String` / `List Char`.  The byte-level
`strings.HasSuffix` / `strings.Contains` coincide with the character-level
checks used below because the patterns involved start with ASCII
characters (UTF-8 is self-synchronising).
-/

namespace Bgl

/-- `Config` mirrors the Go struct `config.Config`
(`internal/config/credentials.go`): persisted credential record with JSON
field names `space`, `access_token`, `refresh_token`, `expires_at`.
`expiresAt` is an `int64` epoch-millisecond timestamp, modelled as `Int`. -/
structure Config where
  space : String
  accessToken : String
  refreshToken : String
  expiresAt : Int
deriving Repr, DecidableEq

/-- The zero value `config.Config{}` that `config.Load` returns when the
config file does not exist. -/
def zeroConfig : Config := { space := "", accessToken := "", refreshToken := "", expiresAt := 0 }

/-- `TokenResponse` mirrors the Go struct `auth.TokenResponse`: the OAuth
token endpoint's JSON response `{access_token, token_type, expires_in,
refresh_token}`. -/
structure TokenResponse where
  accessToken : String
  tokenType : String
  expiresIn : Int
  refreshToken : String
deriving Repr, DecidableEq

/-- Character-level model of Go's byte-level `strings.HasSuffix s suffix`. -/
def hasSuffix (s sfx : String) : Bool :=
  List.isSuffixOf sfx.data s.data

/-- `needle` occurs as a contiguous sublist of `hay`. -/
def isSubList (needle hay : List Char) : Bool :=
  match hay with
  | [] => needle.isEmpty
  | _ :: t => needle.isPrefixOf hay || isSubList needle t

/-- Character-level model of Go's byte-level `strings.Contains s substr`. -/
def strContains (s sub : String) : Bool :=
  isSubList sub.data s.data

/-! ## ValidateSpace (`internal/auth`, part_002 lines 34-40) -/

/-- The error message returned by `ValidateSpace` on a malformed space. -/
def invalidSpaceMsg : String :=
  "invalid space format: must be <your-space-key>.backlog.com or <your-space-key>.backlog.jp"

def comSuffix : String := ".backlog.com"

def jpSuffix : String := ".backlog.jp"

/-- `auth.ValidateSpace`: accepts exactly the strings ending in
`.backlog.com` or `.backlog.jp`. -/
def ValidateSpace (space : String) : Except String Unit :=
  if !hasSuffix space comSuffix && !hasSuffix space jpSuffix then
    .error invalidSpaceMsg
  else
    .ok ()

/-! ## NewClient (`internal/backlog`, part_000 lines 24-50)

`backlog.NewClient` loads the config, rejects an empty access token,
proactively refreshes when `cfg.ExpiresAt > 0 && time.Now().UnixMilli() >=
cfg.ExpiresAt`, and reloads the config after a successful refresh.  The
environment record carries the outcomes of the effectful calls it makes. -/

/-- Error classification of `NewClient`, one constructor per
`fmt.Errorf` site in the Go source. -/
inductive ClientErr
  | loadFailed (msg : String)
  | notLoggedIn
  | refreshFailed (msg : String)
  | reloadFailed (msg : String)
deriving Repr, DecidableEq

/-- Outcomes of the effectful calls `NewClient` can make: the initial
`config.Load()`, the current time `time.Now().UnixMilli()`, the result of
`auth.RefreshToken()` and of the post-refresh `config.Load()`. -/
structure ClientEnv where
  load : Except String Config
  now : Int
  refresh : Except String Unit
  reload : Except String Config

/-- `backlog.NewClient`, returning the constructed client's config (or an
error) together with the number of times `auth.RefreshToken()` was
invoked. -/
def NewClient (env : ClientEnv) : Except ClientErr Config × Nat :=
  match env.load with
  | .error e => (.error (.loadFailed e), 0)
  | .ok cfg =>
    if cfg.accessToken = "" then
      (.error .notLoggedIn, 0)
    else if 0 < cfg.expiresAt ∧ cfg.expiresAt ≤ env.now then
      match env.refresh with
      | .error e => (.error (.refreshFailed e), 1)
      | .ok () =>
        match env.reload with
        | .error e => (.error (.reloadFailed e), 1)
        | .ok cfg2 => (.ok cfg2, 1)
    else
      (.ok cfg, 0)

/-! ## Client.doRequest (`internal/backlog`, part_000 lines 52-101)

The 401 handling: on a `WWW-Authenticate` challenge containing
`"The access token expired"` the method refreshes, reloads the config and
calls itself again — with no recursion bound in the source.  The
embedding unfolds that recursion with a fuel parameter and counts both
the HTTP calls to the target endpoint and the refresh attempts. -/

def expiredChallenge : String := "The access token expired"

def invalidChallenge : String := "The access token is invalid"

/-- An HTTP response as `doRequest` observes it: status code,
`WWW-Authenticate` header value, and body. -/
structure HttpResp where
  status : Nat
  wwwAuth : String
  body : String
deriving Repr, DecidableEq

/-- Error classification of `doRequest`, one constructor per error return
in the Go source. -/
inductive ApiErr
  | transportError (msg : String)
  | refreshFailed (msg : String)
  | reloadFailed (msg : String)
  | invalidToken
  | authFailed (status : Nat)
  | requestFailed (status : Nat) (body : String)
deriving Repr, DecidableEq

/-- The server and the effectful collaborators of `doRequest`:
`respond k` is the outcome of the `k`-th HTTP call to the target endpoint
(`.error` when `httpClient.Do` or `io.ReadAll` fails, in which source
`doRequest` returns that error unchanged), `refresh k` the outcome of the
`k`-th `auth.RefreshToken()` invocation, `reload k` the outcome of the
`k`-th post-refresh `config.Load()`. -/
structure RequestEnv where
  respond : Nat → Except String HttpResp
  refresh : Nat → Except String Unit
  reload : Nat → Except String Config

/-- `Client.doRequest`, fuel-indexed.  Returns
`(outcome, total target-endpoint HTTP calls, total refresh attempts)`;
the outcome is `none` when the recursion is still running after `fuel`
nested invocations. `calls`/`refreshes` count the calls made so far and
`cfg` is the client's current config (replaced after each reload, as the
source assigns `c.cfg = cfg`). -/
def doRequest (env : RequestEnv) (cfg : Config) :
    Nat → Nat → Nat → Option (Except ApiErr String) × Nat × Nat
  | 0, calls, refreshes => (none, calls, refreshes)
  | fuel + 1, calls, refreshes =>
    match env.respond calls with
    | .error e => (some (.error (.transportError e)), calls + 1, refreshes)
    | .ok resp =>
    if resp.status = 401 then
      if strContains resp.wwwAuth expiredChallenge then
        match env.refresh refreshes with
        | .error e => (some (.error (.refreshFailed e)), calls + 1, refreshes + 1)
        | .ok () =>
          match env.reload refreshes with
          | .error e => (some (.error (.reloadFailed e)), calls + 1, refreshes + 1)
          | .ok cfg2 => doRequest env cfg2 fuel (calls + 1) (refreshes + 1)
      else if strContains resp.wwwAuth invalidChallenge then
        (some (.error .invalidToken), calls + 1, refreshes)
      else
        (some (.error (.authFailed resp.status)), calls + 1, refreshes)
    else if resp.status ≠ 200 then
      (some (.error (.requestFailed resp.status resp.body)), calls + 1, refreshes)
    else
      (some (.ok resp.body), calls + 1, refreshes)

/-- The adversarial server of claim C1: every call to the target endpoint
is answered `401` with a `WWW-Authenticate` challenge containing
`"The access token expired"`, and every token refresh succeeds. -/
def alwaysExpiredEnv : RequestEnv where
  respond := fun _ => .ok { status := 401, wwwAuth := expiredChallenge, body := "" }
  refresh := fun _ => .ok ()
  reload := fun _ => .ok { space := "s.backlog.com", accessToken := "tok", refreshToken := "r", expiresAt := 0 }

/-! ## The Login callback handler (`internal/auth`, part_002 lines 228-246)

Go's `r.URL.Query().Get` returns the empty string when the parameter is
absent, so the handler's two inputs are plain strings. -/

/-- The `authResult` value the handler sends on `resultChan`. -/
structure AuthResult where
  code : String
  err : Option String
deriving Repr, DecidableEq

/-- What the handler does for one callback request: the result sent on the
channel and the HTTP status written to the browser. -/
structure CallbackReply where
  sent : AuthResult
  httpStatus : Nat
deriving Repr, DecidableEq

def stateMismatchMsg (expected got : String) : String :=
  "state mismatch: expected " ++ expected ++ ", got " ++ got

def noCodeMsg : String := "no authorization code received"

/-- The callback handler registered by `Login`: `nonce` is the state
generated for this flow, `receivedState` and `code` the query parameters
(empty string when absent). -/
def callbackHandler (nonce receivedState code : String) : CallbackReply :=
  if receivedState ≠ nonce then
    { sent := { code := "", err := some (stateMismatchMsg nonce receivedState) }, httpStatus := 400 }
  else if code = "" then
    { sent := { code := "", err := some noCodeMsg }, httpStatus := 400 }
  else
    { sent := { code := code, err := none }, httpStatus := 200 }

/-! ## Login's listener lifecycle (`internal/auth`, part_002 lines 249-314)

After `net.Listen` succeeds (line 249) `Login` has no early return until
it installs the shutdown watcher (lines 276-281):

```
shutdownCtx, shutdownCancel := context.WithCancel(context.Background())
defer shutdownCancel()
go func() { <-shutdownCtx.Done(); _ = server.Shutdown(context.Background()) }()
```

The deferred `shutdownCancel` runs on the main goroutine immediately
before `Login` returns, on every exit path.  The `server.Shutdown` call,
however, runs on the watcher goroutine once the context is cancelled; the
Go scheduler may run it either between the cancellation and `Login`'s
return, or only after `Login` has already returned.  The trace model
below records exactly these possibilities. -/

/-- Events of one `Login` run, in source order: `bind` = `net.Listen`
succeeds, `install` = the shutdown watcher is set up, `runSpinner` = the
interactive wait, `exchange` = `exchangeCode`, `loadCfg` / `saveCfg` =
the config load / save, `cancelCtx` = the deferred `shutdownCancel`,
`ret` = `Login` returns, `shutdown` = the watcher goroutine's
`server.Shutdown`. -/
inductive LEvent
  | bind
  | install
  | runSpinner
  | exchange
  | loadCfg
  | saveCfg
  | cancelCtx
  | ret
  | shutdown
deriving Repr, DecidableEq

/-- The exit paths `Login` can take once the listener is bound:
`spinnerError` = `p.Run()` fails; `resultError` = the spinner delivered
an error result (state mismatch, missing code, timeout, user
cancellation, or a `Serve` failure); then the token-exchange, config-load
and config-save failures; and success. -/
inductive LoginExit
  | spinnerError
  | resultError
  | exchangeFailed
  | loadFailed
  | saveFailed
  | success
deriving Repr, DecidableEq

/-- The main-goroutine events of `Login` for each exit path, ending with
the deferred context cancellation followed by the return. -/
def mainEvents (p : LoginExit) : List LEvent :=
  [.bind, .install, .runSpinner] ++
    (match p with
     | .spinnerError => []
     | .resultError => []
     | .exchangeFailed => [.exchange]
     | .loadFailed => [.exchange, .loadCfg]
     | .saveFailed => [.exchange, .loadCfg, .saveCfg]
     | .success => [.exchange, .loadCfg, .saveCfg]) ++
    [.cancelCtx, .ret]

/-- The complete event interleavings one `Login` run can produce on exit
path `p`: the watcher goroutine's `shutdown` fires at some point after
the context cancellation — either before or after the main goroutine's
return, at the scheduler's discretion. -/
def loginTraces (p : LoginExit) : List (List LEvent) :=
  [(mainEvents p).dropLast ++ [.shutdown, .ret],
   mainEvents p ++ [.shutdown]]

/-- `precedes t a b`: in trace `t`, an occurrence of `a` comes strictly
before an occurrence of `b`. -/
def precedes (t : List LEvent) (a b : LEvent) : Bool :=
  match t with
  | [] => false
  | x :: xs => if x = a then xs.contains b else if x = b then false else precedes xs a b

/-! ## Login's token persistence (`internal/auth`, part_002 lines 299-310) -/

/-- The config `Login` passes to `cfg.Save()` after a successful code
exchange: the loaded config with `Space`, `AccessToken` and
`RefreshToken` overwritten (lines 304-306). -/
def loginPersistedConfig (cfg : Config) (space : String) (tok : TokenResponse) : Config :=
  { cfg with space := space, accessToken := tok.accessToken, refreshToken := tok.refreshToken }

/-- Modelled from the spec: the absolute epoch-millisecond expiry
timestamp the specification says is computed from the token response's
`expires_in` (seconds) at the current time `now` and persisted as
`expires_at`.  No function of the source computes this value; it is
stated here only to be compared with what the source persists. -/
def specExpiresAt (now expiresIn : Int) : Int :=
  now + expiresIn * 1000

/-! ## RefreshToken (`internal/auth`, part_002 lines 368-410) -/

/-- Error classification of `auth.RefreshToken`, one constructor per
error return in the Go source; `rejected` carries the non-200 HTTP
status of the token endpoint's response. -/
inductive RefreshErr
  | loadFailed (msg : String)
  | transportError (msg : String)
  | noRefreshToken
  | rejected (status : Nat)
  | parseError (msg : String)
  | saveFailed (msg : String)
deriving Repr, DecidableEq

/-- Outcomes of the effectful calls `RefreshToken` makes: the
`config.Load()`; the token-endpoint POST (`.error` when `http.PostForm`
fails, in which case the source returns that error unchanged, otherwise
the response's HTTP status); the JSON decode of the response body; and
the result of `cfg.Save()`. -/
structure RefreshEnv where
  load : Except String Config
  postResult : Except String Nat
  postBody : Except String TokenResponse
  saveResult : Except String Unit

/-- `auth.RefreshToken`, returning its result together with the list of
configs passed to `Config.Save` (empty when no write was attempted). -/
def RefreshToken (env : RefreshEnv) : Except RefreshErr Unit × List Config :=
  match env.load with
  | .error e => (.error (.loadFailed e), [])
  | .ok cfg =>
    if cfg.refreshToken = "" then
      (.error .noRefreshToken, [])
    else
      match env.postResult with
      | .error e => (.error (.transportError e), [])
      | .ok status =>
      if status ≠ 200 then
        (.error (.rejected status), [])
      else
      match env.postBody with
      | .error e => (.error (.parseError e), [])
      | .ok tok =>
        let cfg2 := { cfg with accessToken := tok.accessToken, refreshToken := tok.refreshToken }
        match env.saveResult with
        | .error e => (.error (.saveFailed e), [cfg2])
        | .ok () => (.ok (), [cfg2])

/-! ## Logout (`internal/auth`, part_002 lines 346-365) -/

def notLoggedInMsg : String := "not logged in"

/-- `auth.Logout`, acting on the loaded config `cfg` (a `config.Load()`
failure propagates before this point); `saveResult` is the outcome of
`cfg.Save()`.  Returns the result and the configs passed to
`Config.Save`. -/
def Logout (cfg : Config) (saveResult : Except String Unit) :
    Except String Unit × List Config :=
  if cfg.accessToken = "" ∧ cfg.refreshToken = "" then
    (.error notLoggedInMsg, [])
  else
    let cfg2 := { cfg with accessToken := "", refreshToken := "" }
    match saveResult with
    | .error e => (.error ("failed to save config: " ++ e), [cfg2])
    | .ok () => (.ok (), [cfg2])

/-! ## TokenStore: `config.Load` / `Config.Save`
(`internal/config/credentials.go` lines 52-96)

`Save` writes `json.MarshalIndent(c, "", "  ")` to the config file;
`Load` returns the zero `Config` when the file does not exist and
otherwise `json.Unmarshal`s its contents.  The file system is modelled as
`Option (List Char)` — the file's contents, or `none` when absent.

The encoder below reproduces Go's `encoding/json` output for this struct:
a two-space-indented object with the four tagged fields in declaration
order; strings escaped per `encodeState.string` with HTML escaping on
(`"`, `\`, control characters, `<`, `>`, `&`, U+2028/U+2029); the `int64`
in decimal.  The decoder models `json.Unmarshal` restricted to the
documents this encoder produces (Go's general parser accepts exactly
these documents and assigns the fields as parsed here). -/

/-- Lowercase hexadecimal digit, as Go's `encoding/json` emits. -/
def hexDigitChar (n : Nat) : Char :=
  if n < 10 then Char.ofNat (48 + n) else Char.ofNat (87 + n)

/-- One character of JSON string escaping, following Go
`encoding/json.encodeState.string` with `escapeHTML = true`. -/
def escapeChar (c : Char) : List Char :=
  if c = '"' then ['\\', '"']
  else if c = '\\' then ['\\', '\\']
  else if c = '\n' then ['\\', 'n']
  else if c = '\r' then ['\\', 'r']
  else if c = '\t' then ['\\', 't']
  else if c.toNat < 32 ∨ c = '<' ∨ c = '>' ∨ c = '&' then
    ['\\', 'u', '0', '0', hexDigitChar (c.toNat / 16), hexDigitChar (c.toNat % 16)]
  else if c.toNat = 8232 ∨ c.toNat = 8233 then
    ['\\', 'u', '2', '0', '2', hexDigitChar (c.toNat % 16)]
  else [c]

def escapeList : List Char → List Char
  | [] => []
  | c :: cs => escapeChar c ++ escapeList cs

def digitChar (n : Nat) : Char := Char.ofNat (48 + n)

/-- Decimal digits of `n`, most significant first (Go `strconv.AppendInt`
for non-negative input). -/
def natToChars (n : Nat) : List Char :=
  if n < 10 then [digitChar n]
  else natToChars (n / 10) ++ [digitChar (n % 10)]
termination_by n
decreasing_by exact Nat.div_lt_self (by omega) (by omega)

/-- Decimal rendering of an `int64` (Go `strconv.AppendInt`). -/
def intToChars (i : Int) : List Char :=
  if i < 0 then '-' :: natToChars (-i).toNat else natToChars i.toNat

def spaceKey : String := "space"

def accessKey : String := "access_token"

def refreshKey : String := "refresh_token"

def expiresKey : String := "expires_at"

def lbrace : Char := Char.ofNat 123

def rbrace : Char := Char.ofNat 125

/-- `  "<key>": ` — the two-space indent, the quoted field tag and the
colon-space separator of one `MarshalIndent` line. -/
def keyPart (k : String) : List Char :=
  [' ', ' ', '"'] ++ k.data ++ ['"', ':', ' ']

def pre1 : List Char := [lbrace, '\n'] ++ keyPart spaceKey ++ ['"']

def pre2 : List Char := [',', '\n'] ++ keyPart accessKey ++ ['"']

def pre3 : List Char := [',', '\n'] ++ keyPart refreshKey ++ ['"']

def pre4 : List Char := [',', '\n'] ++ keyPart expiresKey

def endPart : List Char := ['\n', rbrace]

/-- `json.MarshalIndent(c, "", "  ")` for a `config.Config` value. -/
def marshalConfig (c : Config) : List Char :=
  pre1 ++ escapeList c.space.data ++ ['"'] ++
  pre2 ++ escapeList c.accessToken.data ++ ['"'] ++
  pre3 ++ escapeList c.refreshToken.data ++ ['"'] ++
  pre4 ++ intToChars c.expiresAt ++ endPart

/-- Consume the exact characters `pat` from the input. -/
def expects (pat input : List Char) : Option (List Char) :=
  match pat, input with
  | [], rest => some rest
  | p :: ps, c :: cs => if c = p then expects ps cs else none
  | _ :: _, [] => none

def isDigitChar (c : Char) : Bool :=
  decide (48 ≤ c.toNat ∧ c.toNat ≤ 57)

def digitVal (c : Char) : Nat := c.toNat - 48

/-- Consume a maximal digit run, accumulating its value. -/
def parseDigitsAux : List Char → Nat → Nat × List Char
  | [], acc => (acc, [])
  | c :: cs, acc =>
    if isDigitChar c then parseDigitsAux cs (10 * acc + digitVal c) else (acc, c :: cs)

/-- A decimal natural: at least one leading digit. -/
def parseNat (l : List Char) : Option (Nat × List Char) :=
  match l with
  | c :: _ => if isDigitChar c then some (parseDigitsAux l 0) else none
  | [] => none

/-- A decimal integer with optional leading minus sign
(`strconv.ParseInt`, as `json.Unmarshal` uses for an `int64` field). -/
def parseInt (l : List Char) : Option (Int × List Char) :=
  match l with
  | [] => none
  | c :: cs =>
    if c = '-' then (parseNat cs).map (fun p => (-(p.1 : Int), p.2))
    else (parseNat l).map (fun p => ((p.1 : Int), p.2))

def hexVal (c : Char) : Option Nat :=
  if 48 ≤ c.toNat ∧ c.toNat ≤ 57 then some (c.toNat - 48)
  else if 97 ≤ c.toNat ∧ c.toNat ≤ 102 then some (c.toNat - 87)
  else if 65 ≤ c.toNat ∧ c.toNat ≤ 70 then some (c.toNat - 55)
  else none

/-- One JSON escape sequence, the characters after the `\`: the decoded
character and the remaining input.  Surrogate pairs are not recombined;
the encoder above never emits surrogate halves, so they cannot occur in
`Save` output. -/
def parseEsc : List Char → Option (Char × Nat)
  | 'u' :: h1 :: h2 :: h3 :: h4 :: _ =>
    match hexVal h1, hexVal h2, hexVal h3, hexVal h4 with
    | some a, some b, some c3, some d =>
      some (Char.ofNat (((a * 16 + b) * 16 + c3) * 16 + d), 5)
    | _, _, _, _ => none
  | e :: _ =>
    if e = '"' then some ('"', 1)
    else if e = '\\' then some ('\\', 1)
    else if e = '/' then some ('/', 1)
    else if e = 'b' then some (Char.ofNat 8, 1)
    else if e = 'f' then some (Char.ofNat 12, 1)
    else if e = 'n' then some ('\n', 1)
    else if e = 'r' then some ('\r', 1)
    else if e = 't' then some ('\t', 1)
    else none
  | [] => none

/-- The body of a JSON string after the opening quote: unescapes up to
the closing quote and returns the decoded characters and the rest of the
input. -/
def parseStringBody (l : List Char) : Option (List Char × List Char) :=
  match l with
  | [] => none
  | c :: cs =>
    if c = '"' then some ([], cs)
    else if c = '\\' then
      match parseEsc cs with
      | none => none
      | some dc => (parseStringBody (cs.drop dc.2)).map (fun p => (dc.1 :: p.1, p.2))
    else (parseStringBody cs).map (fun p => (c :: p.1, p.2))
termination_by l.length
decreasing_by
  · simp only [List.length_cons, List.length_drop]
    omega
  · simp only [List.length_cons]
    omega

/-- `json.Unmarshal` into a `config.Config`, restricted to the documents
`marshalConfig` produces. -/
def unmarshalConfig (l : List Char) : Option Config := do
  let r1 ← expects pre1 l
  let (sp, r2) ← parseStringBody r1
  let r3 ← expects pre2 r2
  let (ak, r4) ← parseStringBody r3
  let r5 ← expects pre3 r4
  let (rk, r6) ← parseStringBody r5
  let r7 ← expects pre4 r6
  let (ex, r8) ← parseInt r7
  let r9 ← expects endPart r8
  match r9 with
  | [] => some { space := ⟨sp⟩, accessToken := ⟨ak⟩, refreshToken := ⟨rk⟩, expiresAt := ex }
  | _ :: _ => none

/-- `Config.Save`: the file contents written for `c`. -/
def SaveFile (c : Config) : Option (List Char) :=
  some (marshalConfig c)

/-- Stand-in for the message of a `json.Unmarshal` failure surfaced by
`config.Load`. -/
def jsonErrMsg : String := "invalid config JSON"

/-- `config.Load`: a missing file yields the zero `Config` (the
`os.IsNotExist` branch), otherwise the contents are unmarshalled. -/
def LoadFile (file : Option (List Char)) : Except String Config :=
  match file with
  | none => .ok zeroConfig
  | some data =>
    match unmarshalConfig data with
    | some cfg => .ok cfg
    | none => .error jsonErrMsg

/-- Does the input start with a decimal digit? -/
def headIsDigit : List Char → Bool
  | [] => false
  | c :: _ => isDigitChar c

/-- A `Config` Go can actually hold: `expiresAt` within `int64` range.
(Go strings with invalid UTF-8 are not representable as Lean strings, so
the UTF-8 validity of the other fields is implicit in the model.) -/
def validConfig (c : Config) : Prop :=
  -(2 ^ 63) ≤ c.expiresAt ∧ c.expiresAt < 2 ^ 63

instance (c : Config) : Decidable (validConfig c) := by
  unfold validConfig; infer_instance

/-! # Theorems -/

/-- C7: every string ending in `.backlog.com` or `.backlog.jp` passes
`ValidateSpace`; every other string fails with the invalid-space-format
error. -/
theorem validateSpace_spec (s : String) :
    (hasSuffix s comSuffix = true ∨ hasSuffix s jpSuffix = true →
      ValidateSpace s = .ok ()) ∧
    (hasSuffix s comSuffix = false → hasSuffix s jpSuffix = false →
      ValidateSpace s = .error invalidSpaceMsg) := by
  unfold ValidateSpace
  constructor
  · rintro (h | h) <;> simp [h]
  · intro h1 h2
    simp [h1, h2]

/-- Witness for `validateSpace_spec` at concrete inputs. -/
theorem validateSpace_spec_witness :
    ValidateSpace ("myspace.backlog.jp") = .ok () ∧
    ValidateSpace ("example.com") = .error invalidSpaceMsg :=
  ⟨(validateSpace_spec ("myspace.backlog.jp")).1 (Or.inr (by decide)),
   (validateSpace_spec ("example.com")).2 (by decide) (by decide)⟩

/-- C9: when no config file exists, `config.Load` returns the zero-value
`Config` and not an error. -/
theorem load_missing_file_is_zero_config :
    LoadFile none = .ok zeroConfig := rfl

/-- C4: a callback whose `state` differs from the flow's nonce sends a
state-mismatch error on the result channel and answers the browser with
HTTP 400, whatever the `code` parameter is (present or empty). -/
theorem callback_state_mismatch (nonce rs code : String) (h : rs ≠ nonce) :
    callbackHandler nonce rs code =
      { sent := { code := "", err := some (stateMismatchMsg nonce rs) }, httpStatus := 400 } := by
  unfold callbackHandler
  simp [h]

/-- Witness for `callback_state_mismatch`: a wrong state with a code
present, and a wrong state with no code. -/
theorem callback_state_mismatch_witness :
    callbackHandler ("0a1b2c") ("evil") ("authcode") =
      { sent := { code := "", err := some (stateMismatchMsg ("0a1b2c") ("evil")) }, httpStatus := 400 } ∧
    callbackHandler ("0a1b2c") ("") ("") =
      { sent := { code := "", err := some (stateMismatchMsg ("0a1b2c") ("")) }, httpStatus := 400 } :=
  ⟨callback_state_mismatch _ _ _ (by decide), callback_state_mismatch _ _ _ (by decide)⟩

/-- C10: `Logout` saves the loaded config with only the two token fields
cleared — `space` and `expiresAt` survive unchanged — and when both
tokens are already empty it returns the not-logged-in error without
calling `Save`. -/
theorem logout_frame (cfg : Config) (s : Except String Unit) :
    (¬(cfg.accessToken = "" ∧ cfg.refreshToken = "") →
      (Logout cfg s).2 =
        [{ space := cfg.space, accessToken := "", refreshToken := "", expiresAt := cfg.expiresAt }]) ∧
    (cfg.accessToken = "" → cfg.refreshToken = "" →
      Logout cfg s = (.error notLoggedInMsg, [])) := by
  unfold Logout
  constructor
  · intro h
    simp only [if_neg h]
    cases s <;> rfl
  · intro h1 h2
    simp [h1, h2]

/-- Witness for `logout_frame`: a logged-in config keeps `space` and
`expiresAt`; an already-logged-out config is rejected without a write. -/
theorem logout_frame_witness :
    (Logout { space := "sp.backlog.com", accessToken := "a", refreshToken := "r", expiresAt := 42 } (.ok ())).2 =
      [{ space := "sp.backlog.com", accessToken := "", refreshToken := "", expiresAt := 42 }] ∧
    Logout { space := "sp.backlog.com", accessToken := "", refreshToken := "", expiresAt := 42 } (.ok ()) =
      (.error notLoggedInMsg, []) :=
  ⟨(logout_frame _ _).1 (by decide),
   (logout_frame _ _).2 rfl rfl⟩

/-- C6: with a non-empty refresh token and a non-200 answer from the token
endpoint, `RefreshToken` fails carrying that status and never calls
`Config.Save`, so the on-disk credential is untouched. -/
theorem refresh_rejected_no_write (cfg : Config) (status : Nat)
    (body : Except String TokenResponse) (sv : Except String Unit)
    (h1 : cfg.refreshToken ≠ "") (h2 : status ≠ 200) :
    RefreshToken { load := .ok cfg, postResult := .ok status, postBody := body, saveResult := sv } =
      (.error (.rejected status), []) := by
  unfold RefreshToken
  simp [h1, h2]

/-- Witness for `refresh_rejected_no_write`: an HTTP 500 from the token
endpoint. -/
theorem refresh_rejected_no_write_witness :
    RefreshToken { load := .ok { space := "sp.backlog.com", accessToken := "a", refreshToken := "r", expiresAt := 0 },
                   postResult := .ok 500, postBody := .error "no body", saveResult := .ok () } =
      (.error (.rejected 500), []) :=
  refresh_rejected_no_write _ _ _ _ (by decide) (by decide)

/-- C5: `NewClient` on a loaded credential fails with the not-logged-in
error when the access token is empty; with a non-empty token, a positive
`expiresAt` not after the current time triggers the refresher, and a
failing refresh fails construction; with `expiresAt = 0` no proactive
refresh happens. -/
theorem newClient_spec (cfg : Config) (now : Int) (r : Except String Unit)
    (re : Except String Config) :
    (cfg.accessToken = "" →
      NewClient { load := .ok cfg, now := now, refresh := r, reload := re } =
        (.error .notLoggedIn, 0)) ∧
    (cfg.accessToken ≠ "" → 0 < cfg.expiresAt → cfg.expiresAt ≤ now →
      ∀ e, r = .error e →
        NewClient { load := .ok cfg, now := now, refresh := r, reload := re } =
          (.error (.refreshFailed e), 1)) ∧
    (cfg.expiresAt = 0 →
      (NewClient { load := .ok cfg, now := now, refresh := r, reload := re }).2 = 0) := by
  refine ⟨fun h => ?_, fun h1 h2 h3 e he => ?_, fun h0 => ?_⟩
  · unfold NewClient
    simp [h]
  · unfold NewClient
    simp [h1, h2, h3, he]
  · unfold NewClient
    by_cases h : cfg.accessToken = "" <;> simp [h, h0]

/-- Witness for `newClient_spec`: the three guarded behaviours at concrete
inputs. -/
theorem newClient_spec_witness :
    NewClient { load := .ok { space := "s.backlog.com", accessToken := "", refreshToken := "", expiresAt := 0 },
                now := 100, refresh := .ok (), reload := .ok zeroConfig } =
      (.error .notLoggedIn, 0) ∧
    NewClient { load := .ok { space := "s.backlog.com", accessToken := "a", refreshToken := "r", expiresAt := 50 },
                now := 100, refresh := .error "refresh down", reload := .ok zeroConfig } =
      (.error (.refreshFailed "refresh down"), 1) ∧
    (NewClient { load := .ok { space := "s.backlog.com", accessToken := "a", refreshToken := "r", expiresAt := 0 },
                 now := 100, refresh := .ok (), reload := .ok zeroConfig }).2 = 0 :=
  ⟨(newClient_spec _ _ _ _).1 rfl,
   (newClient_spec _ _ _ _).2.1 (by decide) (by decide) (by decide) _ rfl,
   (newClient_spec _ _ _ _).2.2 rfl⟩

theorem strContains_expired_self :
    strContains expiredChallenge expiredChallenge = true := by decide

/-- C1: against a server that answers every attempt 401-expired while
every refresh succeeds, `doRequest` never returns: after `fuel` nested
invocations it is still recursing, having made `fuel` HTTP calls to the
target endpoint and `fuel` refresh attempts.  No recursion bound exists
in the source, so the claimed caps (one refresh, two HTTP calls, then an
error) are violated for every `fuel ≥ 3`. -/
theorem doRequest_always_expired_never_returns (fuel : Nat) :
    ∀ cfg calls refreshes,
      doRequest alwaysExpiredEnv cfg fuel calls refreshes =
        (none, calls + fuel, refreshes + fuel) := by
  induction fuel with
  | zero =>
    intro cfg calls refreshes
    simp [doRequest]
  | succ n ih =>
    intro cfg calls refreshes
    have step : doRequest alwaysExpiredEnv cfg (n + 1) calls refreshes =
        doRequest alwaysExpiredEnv
          { space := "s.backlog.com", accessToken := "tok", refreshToken := "r", expiresAt := 0 }
          n (calls + 1) (refreshes + 1) := rfl
    rw [step, ih]
    simp only [Prod.mk.injEq, true_and]
    omega

/-- C2: neither token-persisting path computes `expires_at`.  `Login`
persists the loaded config with only `space` and the two tokens
overwritten, and `RefreshToken` likewise: starting from a credential with
`expires_at = 0` and a token response carrying `expires_in = 3600`, both
persist `expires_at = 0`, whereas the specified computation at (for
example) epoch-millisecond 1700000000000 yields 1700003600000 ≠ 0. -/
theorem expiresAt_never_computed :
    (loginPersistedConfig zeroConfig ("myspace.backlog.com")
        { accessToken := "newA", tokenType := "Bearer", expiresIn := 3600, refreshToken := "newR" }).expiresAt = 0 ∧
    RefreshToken { load := .ok { space := "myspace.backlog.com", accessToken := "oldA",
                                 refreshToken := "oldR", expiresAt := 0 },
                   postResult := .ok 200,
                   postBody := .ok { accessToken := "newA", tokenType := "Bearer",
                                     expiresIn := 3600, refreshToken := "newR" },
                   saveResult := .ok () } =
      (.ok (), [{ space := "myspace.backlog.com", accessToken := "newA",
                  refreshToken := "newR", expiresAt := 0 }]) ∧
    specExpiresAt 1700000000000 3600 = 1700003600000 := by
  exact ⟨rfl, rfl, rfl⟩

/-- C3 counterexample: the trace in which the watcher goroutine's
`server.Shutdown` runs only after `Login` has returned is admissible on
the success path, so the listener is not always shut down before `Login`
returns. -/
theorem login_shutdown_after_return_admissible :
    (mainEvents .success ++ [.shutdown]) ∈ loginTraces .success ∧
    precedes (mainEvents .success ++ [.shutdown]) .shutdown .ret = false := by
  decide

/-- C3 (amended): on every exit path taken after the listener is bound,
the deferred context cancellation precedes `Login`'s return, and the
listener shutdown occurs in every complete trace — though possibly only
after `Login` has returned. -/
theorem login_cancel_before_return_shutdown_eventually
    (p : LoginExit) (t : List LEvent) (h : t ∈ loginTraces p) :
    precedes t .cancelCtx .ret = true ∧ t.contains .shutdown = true := by
  cases p <;>
    (simp only [loginTraces, mainEvents, List.mem_cons, List.not_mem_nil, or_false] at h
     rcases h with rfl | rfl <;> decide)

/-- Witness for `login_cancel_before_return_shutdown_eventually` at the
success path's shutdown-before-return trace. -/
theorem login_cancel_before_return_witness :
    precedes ((mainEvents .success).dropLast ++ [LEvent.shutdown, LEvent.ret])
        .cancelCtx .ret = true ∧
    ((mainEvents .success).dropLast ++ [LEvent.shutdown, LEvent.ret]).contains .shutdown = true :=
  login_cancel_before_return_shutdown_eventually .success _ (by decide)

/-! ### Load∘Save round-trip: helper lemmas -/

theorem expects_append (pat rest : List Char) :
    expects pat (pat ++ rest) = some rest := by
  induction pat with
  | nil => rfl
  | cons p ps ih => simp [expects, ih]

theorem digitChar_spec : ∀ d : Nat, d < 10 →
    isDigitChar (digitChar d) = true ∧ digitVal (digitChar d) = d := by decide

theorem parseDigitsAux_stop (l : List Char) (acc : Nat) (h : headIsDigit l = false) :
    parseDigitsAux l acc = (acc, l) := by
  cases l with
  | nil => rfl
  | cons c cs =>
    simp only [headIsDigit] at h
    simp [parseDigitsAux, h]

theorem parseDigitsAux_cons (c : Char) (cs : List Char) (acc : Nat) :
    parseDigitsAux (c :: cs) acc =
      if isDigitChar c then parseDigitsAux cs (10 * acc + digitVal c) else (acc, c :: cs) := rfl

theorem parseDigitsAux_chain (n : Nat) :
    ∀ acc l, parseDigitsAux (natToChars n ++ l) acc =
      parseDigitsAux l (acc * 10 ^ (natToChars n).length + n) := by
  induction n using Nat.strong_induction_on with
  | _ n ih =>
    intro acc l
    by_cases h : n < 10
    · have hn : natToChars n = [digitChar n] := by
        conv_lhs => rw [natToChars]
        rw [if_pos h]
      have hd := digitChar_spec n h
      rw [hn, List.singleton_append, parseDigitsAux_cons, if_pos hd.1, hd.2]
      congr 1
      simp only [List.length_cons, List.length_nil]
      ring
    · have hn : natToChars n = natToChars (n / 10) ++ [digitChar (n % 10)] := by
        conv_lhs => rw [natToChars]
        rw [if_neg h]
      have hd := digitChar_spec (n % 10) (Nat.mod_lt _ (by omega))
      have hlt : n / 10 < n := Nat.div_lt_self (by omega) (by omega)
      rw [hn, List.append_assoc, ih _ hlt, List.singleton_append, parseDigitsAux_cons,
        if_pos hd.1, hd.2]
      congr 1
      simp only [List.length_append, List.length_cons, List.length_nil, Nat.zero_add]
      calc 10 * (acc * 10 ^ (natToChars (n / 10)).length + n / 10) + n % 10
          = acc * 10 ^ ((natToChars (n / 10)).length + 1) + (10 * (n / 10) + n % 10) := by
            rw [pow_succ]; ring
        _ = acc * 10 ^ ((natToChars (n / 10)).length + 1) + n := by rw [Nat.div_add_mod]

theorem natToChars_head_digit (n : Nat) :
    ∃ c cs, natToChars n = c :: cs ∧ isDigitChar c = true := by
  induction n using Nat.strong_induction_on with
  | _ n ih =>
    rw [natToChars]
    by_cases h : n < 10
    · exact ⟨digitChar n, [], by rw [if_pos h], (digitChar_spec n h).1⟩
    · have hlt : n / 10 < n := Nat.div_lt_self (by omega) (by omega)
      obtain ⟨c, cs, hc, hd⟩ := ih (n / 10) hlt
      exact ⟨c, cs ++ [digitChar (n % 10)], by rw [if_neg h, hc]; rfl, hd⟩

theorem parseNat_natToChars (n : Nat) (l : List Char) (h : headIsDigit l = false) :
    parseNat (natToChars n ++ l) = some (n, l) := by
  obtain ⟨c, cs, hc, hd⟩ := natToChars_head_digit n
  rw [hc, List.cons_append]
  simp only [parseNat, hd, if_pos]
  rw [← List.cons_append, ← hc, parseDigitsAux_chain, parseDigitsAux_stop l _ h]
  simp

theorem isDigitChar_ne_minus (c : Char) (h : isDigitChar c = true) : c ≠ '-' := by
  intro hc
  subst hc
  exact absurd h (by decide)

theorem parseInt_intToChars (i : Int) (l : List Char) (h : headIsDigit l = false) :
    parseInt (intToChars i ++ l) = some (i, l) := by
  unfold intToChars
  by_cases hneg : i < 0
  · rw [if_pos hneg, List.cons_append]
    simp only [parseInt, if_pos rfl, parseNat_natToChars _ _ h, Option.map_some]
    have : ((-i).toNat : Int) = -i := Int.toNat_of_nonneg (by omega)
    simp [this]
  · rw [if_neg hneg]
    obtain ⟨c, cs, hc, hd⟩ := natToChars_head_digit i.toNat
    rw [hc, List.cons_append]
    simp only [parseInt, if_neg (isDigitChar_ne_minus c hd)]
    rw [← List.cons_append, ← hc, parseNat_natToChars _ _ h]
    have : (i.toNat : Int) = i := Int.toNat_of_nonneg (by omega)
    simp [this]

theorem hexVal_hexDigitChar : ∀ d : Nat, d < 16 → hexVal (hexDigitChar d) = some d := by
  decide

theorem parseEsc_unicode (h1 h2 h3 h4 : Char) (a b n3 n4 : Nat) (l : List Char)
    (e1 : hexVal h1 = some a) (e2 : hexVal h2 = some b)
    (e3 : hexVal h3 = some n3) (e4 : hexVal h4 = some n4) :
    parseEsc ('u' :: h1 :: h2 :: h3 :: h4 :: l) =
      some (Char.ofNat (((a * 16 + b) * 16 + n3) * 16 + n4), 5) := by
  simp [parseEsc, e1, e2, e3, e4]

theorem parseStringBody_quote (l : List Char) :
    parseStringBody ('"' :: l) = some ([], l) := by
  rw [parseStringBody]
  rw [if_pos rfl]

theorem parseStringBody_esc (cs : List Char) (dc : Char × Nat)
    (h : parseEsc cs = some dc) :
    parseStringBody ('\\' :: cs) =
      (parseStringBody (cs.drop dc.2)).map (fun p => (dc.1 :: p.1, p.2)) := by
  rw [parseStringBody]
  simp [h]

theorem parseStringBody_plain (c : Char) (cs : List Char) (h1 : c ≠ '"') (h2 : c ≠ '\\') :
    parseStringBody (c :: cs) = (parseStringBody cs).map (fun p => (c :: p.1, p.2)) := by
  rw [parseStringBody]
  rw [if_neg h1, if_neg h2]

theorem parseStringBody_escapeChar (c : Char) (l : List Char) :
    parseStringBody (escapeChar c ++ l) =
      (parseStringBody l).map (fun p => (c :: p.1, p.2)) := by
  unfold escapeChar
  by_cases h1 : c = '"'
  · subst h1
    rw [if_pos rfl, List.cons_append, List.singleton_append,
      parseStringBody_esc ('"' :: l) ('"', 1) rfl]
    rfl
  rw [if_neg h1]
  by_cases h2 : c = '\\'
  · subst h2
    rw [if_pos rfl, List.cons_append, List.singleton_append,
      parseStringBody_esc ('\\' :: l) ('\\', 1) rfl]
    rfl
  rw [if_neg h2]
  by_cases h3 : c = '\n'
  · subst h3
    rw [if_pos rfl, List.cons_append, List.singleton_append,
      parseStringBody_esc ('n' :: l) ('\n', 1) rfl]
    rfl
  rw [if_neg h3]
  by_cases h4 : c = '\r'
  · subst h4
    rw [if_pos rfl, List.cons_append, List.singleton_append,
      parseStringBody_esc ('r' :: l) ('\r', 1) rfl]
    rfl
  rw [if_neg h4]
  by_cases h5 : c = '\t'
  · subst h5
    rw [if_pos rfl, List.cons_append, List.singleton_append,
      parseStringBody_esc ('t' :: l) ('\t', 1) rfl]
    rfl
  rw [if_neg h5]
  by_cases h6 : c.toNat < 32 ∨ c = '<' ∨ c = '>' ∨ c = '&'
  · rw [if_pos h6]
    have hlt : c.toNat < 256 := by
      rcases h6 with h | h | h | h
      · omega
      all_goals (subst h; decide)
    have hu := parseEsc_unicode '0' '0' (hexDigitChar (c.toNat / 16))
      (hexDigitChar (c.toNat % 16)) 0 0 (c.toNat / 16) (c.toNat % 16) l rfl rfl
      (hexVal_hexDigitChar _ (by omega)) (hexVal_hexDigitChar _ (by omega))
    have hv : ((0 * 16 + 0) * 16 + c.toNat / 16) * 16 + c.toNat % 16 = c.toNat := by omega
    rw [hv, Char.ofNat_toNat] at hu
    rw [List.cons_append, List.cons_append, List.cons_append, List.cons_append,
      List.cons_append, List.cons_append, List.nil_append, parseStringBody_esc _ _ hu]
    rfl
  rw [if_neg h6]
  by_cases h7 : c.toNat = 8232 ∨ c.toNat = 8233
  · rw [if_pos h7]
    have hu := parseEsc_unicode '2' '0' '2' (hexDigitChar (c.toNat % 16)) 2 0 2
      (c.toNat % 16) l rfl rfl rfl (hexVal_hexDigitChar _ (by omega))
    have hv : ((2 * 16 + 0) * 16 + 2) * 16 + c.toNat % 16 = c.toNat := by omega
    rw [hv, Char.ofNat_toNat] at hu
    rw [List.cons_append, List.cons_append, List.cons_append, List.cons_append,
      List.cons_append, List.cons_append, List.nil_append, parseStringBody_esc _ _ hu]
    rfl
  · rw [if_neg h7, List.singleton_append, parseStringBody_plain c l h1 h2]

theorem parseStringBody_escapeList (s l : List Char) :
    parseStringBody (escapeList s ++ ('"' :: l)) = some (s, l) := by
  induction s with
  | nil => simp only [escapeList, List.nil_append, parseStringBody_quote]
  | cons c cs ih =>
    rw [show escapeList (c :: cs) = escapeChar c ++ escapeList cs from rfl,
      List.append_assoc, parseStringBody_escapeChar, ih]
    rfl

theorem expects_self (pat : List Char) : expects pat pat = some [] := by
  have h := expects_append pat []
  rwa [List.append_nil] at h

theorem unmarshal_marshal (c : Config) : unmarshalConfig (marshalConfig c) = some c := by
  have assoc : marshalConfig c =
      pre1 ++ (escapeList c.space.data ++ ('"' :: (pre2 ++ (escapeList c.accessToken.data ++
        ('"' :: (pre3 ++ (escapeList c.refreshToken.data ++ ('"' :: (pre4 ++
        (intToChars c.expiresAt ++ endPart)))))))))) := by
    simp [marshalConfig, List.append_assoc]
  rw [assoc]
  simp only [unmarshalConfig, expects_append, parseStringBody_escapeList,
    parseInt_intToChars c.expiresAt endPart (by decide), expects_self,
    Option.some_bind, Option.bind_eq_bind]

/-- C8: saving any valid credential and loading it back returns the same
credential — all four fields round-trip through the JSON file. -/
theorem save_load_roundtrip (c : Config) (h : validConfig c) :
    LoadFile (SaveFile c) = .ok c := by
  simp only [LoadFile, SaveFile, unmarshal_marshal]

/-- Witness for `save_load_roundtrip`: a credential whose fields exercise
quote, backslash, newline and HTML escaping and a negative expiry. -/
theorem save_load_roundtrip_witness :
    validConfig { space := "my \"spa\\ce\"\n<&>.backlog.com", accessToken := "tok\tA",
                  refreshToken := "ref/R", expiresAt := -42 } ∧
    LoadFile (SaveFile { space := "my \"spa\\ce\"\n<&>.backlog.com", accessToken := "tok\tA",
                         refreshToken := "ref/R", expiresAt := -42 }) =
      .ok { space := "my \"spa\\ce\"\n<&>.backlog.com", accessToken := "tok\tA",
            refreshToken := "ref/R", expiresAt := -42 } :=
  ⟨by decide, save_load_roundtrip _ (by decide)⟩

end Bgl
